import Mathlib

/-!
Verification of the resumption engine of a heap-allocated generator
(`src/rc/generator.rs`).  The driver (`Gen`) is embedded from the source;
the collaborators that live outside the provided sources (the Exchange
Cell tag type `Next`, the suspension handle's `suspend`/poll behaviour and
the step engine `advance`) are modelled from the specification, as marked
on each definition.
-/

/-- Modelled from the spec: the Exchange Cell tag (`rc::engine::Next`,
not under the provided sources).  A single slot holding nothing, a pending
resume argument, or a pending yielded value (spec section 3). -/
inductive Next (Y R : Type) where
  | Empty : Next Y R
  | Resume (r : R) : Next Y R
  | Yield (y : Y) : Next Y R
deriving DecidableEq

/-- Modelled from the spec: the outward result of one resume step
(`ops::GeneratorState`, not under the provided sources): either the body
paused and produced a value, or it finished with a final value. -/
inductive GeneratorState (Y T : Type) where
  | Yielded (y : Y) : GeneratorState Y T
  | Completed (t : T) : GeneratorState Y T
deriving DecidableEq

/-- Modelled from the spec: one logical advance of the coroutine body
(spec sections 4.3 and 9): from a body state, the body either finishes
with a final value or reaches its next suspend, producing the yielded
value and a continuation awaiting the next resume argument. -/
inductive BodyPhase (Y R T σ : Type) where
  | finish (t : T) : BodyPhase Y R T σ
  | suspend (y : Y) (k : R → σ) : BodyPhase Y R T σ

/-- Modelled from the spec: the suspension status of the pinned pollable
computation: not yet started (initial body state `s`), suspended inside
the handle's suspend operation (continuation `k`), or finished. -/
inductive FutState (R σ : Type) where
  | NotStarted (s : σ) : FutState R σ
  | Suspended (k : R → σ) : FutState R σ
  | Finished : FutState R σ

/-- Whether the body has begun executing (`Constructed` is the only state
with `started = false` in the spec's state machine, section 4.3). -/
def FutState.started {R σ : Type} : FutState R σ → Bool
  | .NotStarted _ => false
  | _ => true

/-- The generator driver, from `src/rc/generator.rs` lines 13-16: it owns
the pinned computation and (a shared handle to) the Exchange Cell. -/
structure Gen (Y R σ : Type) where
  airlock : Next Y R
  fut : FutState R σ

/-- Modelled from the spec: the Exchange Cell's `put` for the body side
(spec section 4.1): store `Yield value`, failing fast on a same-direction
double write (a `YieldValue` written over a pending `YieldValue`);
writing over a stale `ResumeValue` is the spec's sanctioned
first-poll-ignores-hand-in case (section 4.3, step 1). -/
def putYield {Y R : Type} (cell : Next Y R) (y : Y) : Except String (Next Y R) :=
  match cell with
  | .Yield _ => .error "double write: YieldValue over pending YieldValue"
  | _ => .ok (.Yield y)

/-- Poll outcome of the underlying pollable computation. -/
inductive Poll (T : Type) where
  | Pending : Poll T
  | Ready (t : T) : Poll T

/-- Modelled from the spec: one poll of the body (spec sections 4.2, 4.3).
A not-yet-started body runs to its first suspend (writing `YieldValue`
into the cell and returning `Pending`) or to completion (returning
`Ready` without touching the cell).  A body suspended inside `suspend`
reads and removes the cell's content, which must be a `ResumeValue`,
returns it from `suspend`, and runs on to the next suspend or to
completion.  A finished computation must not be polled again
(spec section 7: fail fast). -/
def pollFuture {Y R T σ : Type} (step : σ → BodyPhase Y R T σ) :
    FutState R σ → Next Y R → Except String (FutState R σ × Next Y R × Poll T)
  | .NotStarted s, cell =>
    match step s with
    | .finish t => .ok (.Finished, cell, .Ready t)
    | .suspend y k =>
      match putYield cell y with
      | .error e => .error e
      | .ok cell' => .ok (.Suspended k, cell', .Pending)
  | .Suspended k, cell =>
    match cell with
    | .Resume r =>
      match step (k r) with
      | .finish t => .ok (.Finished, .Empty, .Ready t)
      | .suspend y k' =>
        match putYield (.Empty : Next Y R) y with
        | .error e => .error e
        | .ok cell' => .ok (.Suspended k', cell', .Pending)
    | _ => .error "suspend re-entered without a ResumeValue"
  | .Finished, _ => .error "pollable computation polled after completion"

/-- Modelled from the spec: the step engine (`rc::engine::advance`, not
under the provided sources; spec section 4.3 steps 2-4): poll the body
once; on `Ready` report `Completed` (the cell is not touched); on
`Pending` take the `YieldValue` out of the cell, leaving it `Empty`, and
report `Yielded`. -/
def advance {Y R T σ : Type} (step : σ → BodyPhase Y R T σ)
    (fut : FutState R σ) (cell : Next Y R) :
    Except String (FutState R σ × Next Y R × GeneratorState Y T) :=
  match pollFuture step fut cell with
  | .error e => .error e
  | .ok (fut', cell', .Ready t) => .ok (fut', cell', .Completed t)
  | .ok (fut', cell', .Pending) =>
    match cell' with
    | .Yield y => .ok (fut', .Empty, .Yielded y)
    | _ => .error "pending poll left no YieldValue in the cell"

/-- `Gen::new` (`src/rc/generator.rs` lines 31-38): the cell starts
`Empty` and the body is built but never polled — the computation starts
in its initial state `s₀`. -/
def Gen.new {Y R σ : Type} (s₀ : σ) : Gen Y R σ :=
  { airlock := .Empty, fut := .NotStarted s₀ }

/-- The driver-side cell write of `Gen::resume_with`
(`src/rc/generator.rs` line 50:
`*self.airlock.borrow_mut() = Next::Resume(arg);`): an unconditional
overwrite of whatever the cell held. -/
def writeResume {Y R : Type} (_cell : Next Y R) (arg : R) : Next Y R :=
  .Resume arg

/-- `Gen::resume_with` (`src/rc/generator.rs` lines 49-52): write the
argument into the cell as a `ResumeValue`, then run the step engine. -/
def Gen.resume_with {Y R T σ : Type} (step : σ → BodyPhase Y R T σ)
    (g : Gen Y R σ) (arg : R) :
    Except String (Gen Y R σ × GeneratorState Y T) :=
  match advance step g.fut (writeResume g.airlock arg) with
  | .error e => .error e
  | .ok (fut', cell', out) => .ok ({ airlock := cell', fut := fut' }, out)

/-- `Gen::resume` (`src/rc/generator.rs` lines 62-64): defined as
`resume_with` at the unit value. -/
def Gen.resume {Y T σ : Type} (step : σ → BodyPhase Y Unit T σ)
    (g : Gen Y Unit σ) : Except String (Gen Y Unit σ × GeneratorState Y T) :=
  Gen.resume_with step g ()

/-- Trace of outcomes observed by repeatedly calling `resume_with` with
the given arguments; a panic (error) ends the trace. -/
def runTrace {Y R T σ : Type} (step : σ → BodyPhase Y R T σ) :
    Gen Y R σ → List R → List (Except String (GeneratorState Y T))
  | _, [] => []
  | g, arg :: rest =>
    match Gen.resume_with step g arg with
    | .error e => [.error e]
    | .ok (g', out) => .ok out :: runTrace step g' rest

/-- The result of resuming a generator whose body continues from state
`s`: the driver state and outcome determined by the body's next phase. -/
def resumeOutcome {Y R T σ : Type} (step : σ → BodyPhase Y R T σ) (s : σ) :
    Except String (Gen Y R σ × GeneratorState Y T) :=
  match step s with
  | .finish t => .ok (⟨.Empty, .Finished⟩, .Completed t)
  | .suspend y k' => .ok (⟨.Empty, .Suspended k'⟩, .Yielded y)

/-- The result of the very first resume of a freshly constructed
generator: the body starts from `s₀`; if it completes without suspending
the hand-in argument is still in the cell (spec section 4.3 step 1). -/
def startOutcome {Y R T σ : Type} (step : σ → BodyPhase Y R T σ)
    (s₀ : σ) (arg : R) : Except String (Gen Y R σ × GeneratorState Y T) :=
  match step s₀ with
  | .finish t => .ok (⟨.Resume arg, .Finished⟩, .Completed t)
  | .suspend y k => .ok (⟨.Empty, .Suspended k⟩, .Yielded y)

/-- Example body: never suspends, immediately returns `42`
(spec section 8, scenario 2). -/
def constStep : Unit → BodyPhase Nat Nat Nat Unit :=
  fun _ => .finish 42

/-- Example body: yields `1`, then finishes with the value received from
the resume that follows the suspend. -/
def onceStep : Option Nat → BodyPhase Nat Nat Nat (Option Nat) :=
  fun s =>
    match s with
    | none => .suspend 1 (fun r => some r)
    | some r => .finish r

/-- Example body: never suspends, immediately returns `42`
(spec section 8, scenario 2); a second copy used where two claims need
disjoint concrete material. -/
def constStep2 : Unit → BodyPhase Nat Nat Nat Unit :=
  fun _ => .finish 42

/-- Reference-counted pointer, modelled as an address; `clone` copies the
address, so a clone refers to the identical allocation. -/
structure RcRef where
  addr : Nat
deriving DecidableEq

/-- `Rc::clone` shares the allocation: the clone holds the same address. -/
def RcRef.clone (r : RcRef) : RcRef :=
  ⟨r.addr⟩

/-- Modelled from the spec: the Suspension Handle (`rc::Co`, not under
the provided sources) holds a reference to the Exchange Cell
(spec section 3). -/
structure CoRef where
  airlock : RcRef
deriving DecidableEq

/-- The allocation-level view of `Gen::new` (`src/rc/generator.rs`
lines 31-38): the references produced and the initial cell store. -/
structure NewAlloc (Y R : Type) where
  genAirlock : RcRef
  co : CoRef
  store : Nat → Option (Next Y R)

/-- `Gen::new` at the allocation level (`src/rc/generator.rs` lines
32-37): allocate the cell at a fresh address holding `Empty`
(`Rc::new(RefCell::new(Next::Empty))`), clone the reference, hand the
clone to the `Co` passed to the body constructor, and keep the original
in the driver. -/
def genNewAlloc (Y R : Type) (fresh : Nat) : NewAlloc Y R :=
  let airlock : RcRef := ⟨fresh⟩
  let co : CoRef := ⟨airlock.clone⟩
  { genAirlock := airlock
    co := co
    store := fun n => if n = fresh then some Next.Empty else none }

/-- Traces of well-formed outcome sequences: zero or more `Yielded`
results, then nothing, or a terminal `Completed`, possibly followed by
the single panic that a step after completion produces. -/
inductive AlternationTrace {Y T : Type} :
    List (Except String (GeneratorState Y T)) → Prop where
  | nil : AlternationTrace []
  | yielded (y : Y) {rest : List (Except String (GeneratorState Y T))}
      (h : AlternationTrace rest) :
      AlternationTrace (.ok (.Yielded y) :: rest)
  | completedEnd (t : T) : AlternationTrace [.ok (.Completed t)]
  | completedErr (t : T) (e : String) :
      AlternationTrace [.ok (.Completed t), .error e]

/-- Resuming a finished generator panics at once, whatever the cell
holds (helper for the trace lemmas). -/
theorem runTrace_finished_cons {Y R T σ : Type}
    (step : σ → BodyPhase Y R T σ) (c : Next Y R) (arg : R)
    (rest : List R) :
    runTrace step ⟨c, FutState.Finished⟩ (arg :: rest) =
      [.error "pollable computation polled after completion"] := rfl

/-- Helper: every trace of a generator whose body is not yet finished is
a well-formed alternation trace. -/
theorem runTrace_alt_aux {Y R T σ : Type} (step : σ → BodyPhase Y R T σ) :
    ∀ (inputs : List R) (g : Gen Y R σ),
      g.fut ≠ FutState.Finished →
      AlternationTrace (runTrace step g inputs) := by
  intro inputs
  induction inputs with
  | nil =>
    intro g _
    exact AlternationTrace.nil
  | cons arg rest ih =>
    rintro ⟨cell, fut⟩ hg
    cases fut with
    | Finished => exact absurd rfl hg
    | NotStarted s =>
      cases hs : step s with
      | finish t =>
        have hr : Gen.resume_with step ⟨cell, .NotStarted s⟩ arg =
            .ok (⟨.Resume arg, .Finished⟩, .Completed t) := by
          simp [Gen.resume_with, advance, pollFuture, writeResume, hs]
        cases rest with
        | nil =>
          simp only [runTrace, hr]
          exact AlternationTrace.completedEnd t
        | cons a rs =>
          simp only [runTrace, hr, runTrace_finished_cons]
          exact AlternationTrace.completedErr t _
      | suspend y k =>
        have hr : Gen.resume_with step ⟨cell, .NotStarted s⟩ arg =
            .ok (⟨.Empty, .Suspended k⟩, .Yielded y) := by
          simp [Gen.resume_with, advance, pollFuture, writeResume, putYield, hs]
        simp only [runTrace, hr]
        exact AlternationTrace.yielded y (ih ⟨.Empty, .Suspended k⟩ (by simp))
    | Suspended k =>
      cases hs : step (k arg) with
      | finish t =>
        have hr : Gen.resume_with step ⟨cell, .Suspended k⟩ arg =
            .ok (⟨.Empty, .Finished⟩, .Completed t) := by
          simp [Gen.resume_with, advance, pollFuture, writeResume, hs]
        cases rest with
        | nil =>
          simp only [runTrace, hr]
          exact AlternationTrace.completedEnd t
        | cons a rs =>
          simp only [runTrace, hr, runTrace_finished_cons]
          exact AlternationTrace.completedErr t _
      | suspend y k' =>
        have hr : Gen.resume_with step ⟨cell, .Suspended k⟩ arg =
            .ok (⟨.Empty, .Suspended k'⟩, .Yielded y) := by
          simp [Gen.resume_with, advance, pollFuture, writeResume, putYield, hs]
        simp only [runTrace, hr]
        exact AlternationTrace.yielded y (ih ⟨.Empty, .Suspended k'⟩ (by simp))

/-- Helper: a step that reports `Completed` leaves the body finished. -/
theorem resume_completed_finished {Y R T σ : Type}
    (step : σ → BodyPhase Y R T σ) :
    ∀ (g g' : Gen Y R σ) (arg : R) (t : T),
      Gen.resume_with step g arg = .ok (g', .Completed t) →
      g'.fut = FutState.Finished := by
  rintro ⟨cell, fut⟩ g' arg t h
  cases fut with
  | Finished =>
    simp [Gen.resume_with, advance, pollFuture, writeResume] at h
  | NotStarted s =>
    cases hs : step s with
    | finish t' =>
      simp [Gen.resume_with, advance, pollFuture, writeResume, hs] at h
      rw [← h.1]
    | suspend y k =>
      simp [Gen.resume_with, advance, pollFuture, writeResume, putYield, hs] at h
  | Suspended k =>
    cases hs : step (k arg) with
    | finish t' =>
      simp [Gen.resume_with, advance, pollFuture, writeResume, hs] at h
      rw [← h.1]
    | suspend y k' =>
      simp [Gen.resume_with, advance, pollFuture, writeResume, putYield, hs] at h

/-- `resume_with`, seen as a relation between the driver state, the
resume argument and the produced result (used to state determinism). -/
def ResumeRel {Y R T σ : Type} (step : σ → BodyPhase Y R T σ)
    (g : Gen Y R σ) (arg : R)
    (res : Except String (Gen Y R σ × GeneratorState Y T)) : Prop :=
  Gen.resume_with step g arg = res

/-- Driving a freshly constructed generator, seen as a relation between
the body, the input sequence and the observed trace. -/
def TraceRel {Y R T σ : Type} (step : σ → BodyPhase Y R T σ) (s₀ : σ)
    (inputs : List R)
    (tr : List (Except String (GeneratorState Y T))) : Prop :=
  runTrace step (Gen.new s₀) inputs = tr

/-- C1: when the body is suspended with continuation `k`, `resume_with
arg` writes `ResumeValue arg` into the cell before polling, and the body
continues from `k arg`: the value the suspend call returns is exactly the
resume argument, untransformed. -/
theorem value_fidelity {Y R T σ : Type} (step : σ → BodyPhase Y R T σ)
    (k : R → σ) (c : Next Y R) (arg : R) :
    Gen.resume_with step ⟨c, FutState.Suspended k⟩ arg =
      resumeOutcome step (k arg) ∧
    writeResume c arg = Next.Resume arg := by
  constructor
  · cases hs : step (k arg) <;>
      simp [Gen.resume_with, advance, pollFuture, writeResume, putYield,
        resumeOutcome, hs]
  · rfl

/-- C2: the trace of outcomes of any generator is zero or more `Yielded`
results, then at most one terminal `Completed` (possibly followed by the
panic a post-completion step raises); and whenever a step reports
`Completed`, the body has actually run to completion. -/
theorem alternation {Y R T σ : Type} (step : σ → BodyPhase Y R T σ)
    (s₀ : σ) (inputs : List R) :
    AlternationTrace (runTrace step (Gen.new s₀) inputs) ∧
    (∀ (g g' : Gen Y R σ) (arg : R) (t : T),
      Gen.resume_with step g arg = .ok (g', .Completed t) →
      g'.fut = FutState.Finished) :=
  ⟨runTrace_alt_aux step inputs (Gen.new s₀) (by simp [Gen.new]),
   resume_completed_finished step⟩

/-- Witness for C2 at a concrete body and input list. -/
theorem alternation_witness :
    AlternationTrace (runTrace constStep (Gen.new ()) [5, 6]) ∧
    (⟨Next.Resume 5, FutState.Finished⟩ : Gen Nat Nat Unit).fut =
      FutState.Finished :=
  ⟨(alternation constStep () [5, 6]).1,
   (alternation constStep () [5, 6]).2 (Gen.new ())
     ⟨Next.Resume 5, FutState.Finished⟩ 5 42 rfl⟩

/-- C3 counterexample: after a body completes without suspending, its
hand-in `ResumeValue 10` is still pending and was never read; the
driver-side write of the next `resume_with` (line 50) silently replaces
it with `ResumeValue 20` instead of failing, and the error that call does
raise comes from polling the finished body, not from the double write. -/
theorem double_write_counterexample :
    Gen.resume_with constStep (Gen.new ()) 10 =
      .ok (⟨Next.Resume 10, FutState.Finished⟩, .Completed 42) ∧
    writeResume (Next.Resume 10 : Next Nat Nat) 20 = Next.Resume 20 ∧
    Gen.resume_with constStep ⟨Next.Resume 10, FutState.Finished⟩ 20 =
      .error "pollable computation polled after completion" :=
  ⟨rfl, rfl, rfl⟩

/-- C3 amended: only the body-side put fails fast on a same-direction
double write; the driver-side cell write of `resume_with` never checks
the cell — it overwrites unconditionally, dropping any pending value. -/
theorem double_write_amended (Y R : Type) :
    (∀ (y y' : Y),
      putYield ((Next.Yield y : Next Y R)) y' =
        .error "double write: YieldValue over pending YieldValue") ∧
    (∀ (cell : Next Y R) (arg : R), writeResume cell arg = Next.Resume arg) :=
  ⟨fun _ _ => rfl, fun _ _ => rfl⟩

/-- C4: resuming a generator whose body already completed is not a
silent no-op: it deterministically fails with the contract-violation
error, whatever the cell holds and whatever the argument is. -/
theorem resume_after_completion {Y R T σ : Type}
    (step : σ → BodyPhase Y R T σ) (c : Next Y R) (arg : R) :
    Gen.resume_with step ⟨c, FutState.Finished⟩ arg =
      (.error "pollable computation polled after completion" :
        Except String (Gen Y R σ × GeneratorState Y T)) := rfl

/-- C5 counterexample: a body that completes on its very first step
without suspending leaves the hand-in `ResumeValue` in the cell, so
after that `resume_with` returns the Exchange Cell is not `Empty`. -/
theorem cell_empty_counterexample :
    Gen.resume_with constStep2 (Gen.new ()) 3 =
      .ok (⟨Next.Resume 3, FutState.Finished⟩, .Completed 42) ∧
    (Next.Resume 3 : Next Nat Nat) ≠ Next.Empty :=
  ⟨rfl, by decide⟩

/-- C5 amended: after any `resume_with` that returns `Yielded` the cell
is `Empty`, and after a `Completed` step of a previously suspended body
the cell is `Empty`; only a body that completes on its first poll without
suspending leaves its unread hand-in `ResumeValue` behind. -/
theorem cell_empty_amended {Y R T σ : Type} (step : σ → BodyPhase Y R T σ) :
    (∀ (g g' : Gen Y R σ) (arg : R) (y : Y),
      Gen.resume_with step g arg = .ok (g', .Yielded y) →
      g'.airlock = Next.Empty) ∧
    (∀ (c : Next Y R) (k : R → σ) (arg : R) (g' : Gen Y R σ) (t : T),
      Gen.resume_with step ⟨c, FutState.Suspended k⟩ arg =
        .ok (g', .Completed t) →
      g'.airlock = Next.Empty) := by
  constructor
  · rintro ⟨cell, fut⟩ g' arg y h
    cases fut with
    | Finished =>
      simp [Gen.resume_with, advance, pollFuture, writeResume] at h
    | NotStarted s =>
      cases hs : step s with
      | finish t =>
        simp [Gen.resume_with, advance, pollFuture, writeResume, hs] at h
      | suspend y' k =>
        simp [Gen.resume_with, advance, pollFuture, writeResume, putYield,
          hs] at h
        rw [← h.1]
    | Suspended k =>
      cases hs : step (k arg) with
      | finish t =>
        simp [Gen.resume_with, advance, pollFuture, writeResume, hs] at h
      | suspend y' k' =>
        simp [Gen.resume_with, advance, pollFuture, writeResume, putYield,
          hs] at h
        rw [← h.1]
  · intro c k arg g' t h
    cases hs : step (k arg) with
    | finish t' =>
      simp [Gen.resume_with, advance, pollFuture, writeResume, hs] at h
      rw [← h.1]
    | suspend y' k' =>
      simp [Gen.resume_with, advance, pollFuture, writeResume, putYield,
        hs] at h

/-- Witness for C5's amended statement at concrete steps: a yielding
step and a completing step from a suspended body both leave the cell
empty. -/
theorem cell_empty_amended_witness :
    (⟨Next.Empty, FutState.Suspended (fun r => some r)⟩ :
      Gen Nat Nat (Option Nat)).airlock = Next.Empty ∧
    (⟨Next.Empty, FutState.Finished⟩ :
      Gen Nat Nat (Option Nat)).airlock = Next.Empty :=
  ⟨(cell_empty_amended onceStep).1 (Gen.new none)
      ⟨Next.Empty, FutState.Suspended (fun r => some r)⟩ 99 1 rfl,
   (cell_empty_amended onceStep).2 Next.Empty (fun r => some r) 7
      ⟨Next.Empty, FutState.Finished⟩ 7 rfl⟩

/-- C6: whenever the body runs to completion during a step, that
`resume_with` call returns `Completed` carrying exactly the body's final
value — both on the first step of a body that never suspends (where the
hand-in stays in the cell) and on a later step from a suspend point. -/
theorem completion_result {Y R T σ : Type} (step : σ → BodyPhase Y R T σ) :
    (∀ (c : Next Y R) (s : σ) (arg : R) (t : T),
      step s = .finish t →
      Gen.resume_with step ⟨c, FutState.NotStarted s⟩ arg =
        .ok (⟨.Resume arg, .Finished⟩, .Completed t)) ∧
    (∀ (c : Next Y R) (k : R → σ) (arg : R) (t : T),
      step (k arg) = .finish t →
      Gen.resume_with step ⟨c, FutState.Suspended k⟩ arg =
        .ok (⟨.Empty, .Finished⟩, .Completed t)) := by
  constructor
  · intro c s arg t hs
    simp [Gen.resume_with, advance, pollFuture, writeResume, hs]
  · intro c k arg t hs
    simp [Gen.resume_with, advance, pollFuture, writeResume, hs]

/-- Witness for C6: the never-suspending body returns `Completed 42` on
the very first step; the once-yielding body completes with the received
value. -/
theorem completion_result_witness :
    Gen.resume_with constStep ⟨Next.Empty, FutState.NotStarted ()⟩ 7 =
      .ok (⟨Next.Resume 7, FutState.Finished⟩, .Completed 42) ∧
    Gen.resume_with onceStep
      ⟨Next.Empty, FutState.Suspended (fun r => some r)⟩ 9 =
      .ok (⟨Next.Empty, FutState.Finished⟩, .Completed 9) :=
  ⟨(completion_result constStep).1 Next.Empty () 7 42 rfl,
   (completion_result onceStep).2 Next.Empty (fun r => some r) 9 9 rfl⟩

/-- C7: for a generator whose resume type is the unit type, `resume` is
exactly `resume_with` at the unit value — same result, same state
change, as in the source (`resume` is defined by that call). -/
theorem resume_unit_equiv {Y T σ : Type} (step : σ → BodyPhase Y Unit T σ)
    (g : Gen Y Unit σ) :
    Gen.resume step g = Gen.resume_with step g () := rfl

/-- C8: construction runs no body code: the freshly built generator has
an `Empty` cell and a not-yet-started body, independent of the body's
step function, and the body's first step is taken by the first
`resume_with`, starting from the initial state `s₀`. -/
theorem construction_runs_no_body {Y R T σ : Type} (s₀ : σ) :
    (Gen.new s₀ : Gen Y R σ).airlock = Next.Empty ∧
    FutState.started (Gen.new s₀ : Gen Y R σ).fut = false ∧
    (∀ (step : σ → BodyPhase Y R T σ) (arg : R),
      Gen.resume_with step (Gen.new s₀) arg = startOutcome step s₀ arg) := by
  refine ⟨rfl, rfl, fun step arg => ?_⟩
  cases hs : step s₀ <;>
    simp [Gen.resume_with, Gen.new, advance, pollFuture, writeResume,
      putYield, startOutcome, hs]

/-- C9: at the allocation level, `Gen::new` creates the Exchange Cell
holding `Empty`, and the `Co` handle passed to the body constructor holds
a clone of the very same reference: driver and handle point at the
identical cell. -/
theorem shared_cell_init (Y R : Type) (fresh : Nat) :
    (genNewAlloc Y R fresh).co.airlock = (genNewAlloc Y R fresh).genAirlock ∧
    (genNewAlloc Y R fresh).store
        (genNewAlloc Y R fresh).co.airlock.addr = some Next.Empty := by
  constructor
  · rfl
  · simp [genNewAlloc, RcRef.clone]

/-- C10: `resume_with` and the whole driving loop are deterministic
functions of the generator state and the inputs: any two results related
to the same state and argument are equal, and any two traces of
generators built from the same body and driven with the same inputs are
equal. -/
theorem resume_deterministic {Y R T σ : Type}
    (step : σ → BodyPhase Y R T σ) :
    (∀ (g : Gen Y R σ) (arg : R)
        (r₁ r₂ : Except String (Gen Y R σ × GeneratorState Y T)),
      ResumeRel step g arg r₁ → ResumeRel step g arg r₂ → r₁ = r₂) ∧
    (∀ (s₀ : σ) (inputs : List R)
        (t₁ t₂ : List (Except String (GeneratorState Y T))),
      TraceRel step s₀ inputs t₁ → TraceRel step s₀ inputs t₂ → t₁ = t₂) :=
  ⟨fun _ _ _ _ h₁ h₂ => h₁ ▸ h₂ ▸ rfl,
   fun _ _ _ _ h₁ h₂ => h₁ ▸ h₂ ▸ rfl⟩

/-- Witness for C10 at a concrete generator, argument and trace. -/
theorem resume_deterministic_witness :
    (Except.ok (⟨Next.Resume 3, FutState.Finished⟩, .Completed 42) :
        Except String (Gen Nat Nat Unit × GeneratorState Nat Nat)) =
      .ok (⟨Next.Resume 3, FutState.Finished⟩, .Completed 42) ∧
    ([.ok (.Yielded 1), .ok (.Completed 6)] :
        List (Except String (GeneratorState Nat Nat))) =
      [.ok (.Yielded 1), .ok (.Completed 6)] :=
  ⟨(resume_deterministic constStep).1 (Gen.new ()) 3
      (.ok (⟨Next.Resume 3, FutState.Finished⟩, .Completed 42))
      (.ok (⟨Next.Resume 3, FutState.Finished⟩, .Completed 42)) rfl rfl,
   (resume_deterministic onceStep).2 none [5, 6]
      [.ok (.Yielded 1), .ok (.Completed 6)]
      [.ok (.Yielded 1), .ok (.Completed 6)] rfl rfl⟩

